import Mathlib

/-!
Verification of the MindSort selection algorithms

Shallow embedding of `src/SelectionAlgorithm.ts` (the item-selection module of
the LotteThesisMindSortCode repository) and proofs about it.

Modelling conventions:
* An `ItemPair` is modelled by its identity-relevant data: the stable `index`
  and the 2-D `fromPosition` coordinate (`pos`).  JavaScript compares items by
  object reference (`===`, `includes`); in the model this is value equality,
  which coincides with reference equality whenever the items of one session
  are pairwise distinct values (they are: `index` is unique per session).
* The mutable `answers` array of an item is only ever read through its
  `length`; the length at the moment of a call is supplied as a function
  `ans : ItemPair → Nat` (the JavaScript objects are shared between the
  clusters and the queue, so a single snapshot function models both views).
* `Math.random()` draws are supplied as an explicit argument
  `rnd : Nat → Int` giving the draw for each position of the array being
  shuffled; all theorems hold for every such argument.
* JavaScript numbers holding counters are non-negative integers here (`Nat`);
  every subtraction the source performs is modelled in `Int` so that it
  cannot silently truncate.
* Fallible paths return `Option`: `none` models the call aborting with an
  uncaught error.  Concretely, when `getClusterOfItem` finds no cluster the
  source dereferences `undefined` and throws a `TypeError` (the failure mode
  the specification names `StateInconsistency`), and a steady-state call on an
  empty queue makes the anti-repeat assignment `todo[0] = currentFirst`
  materialise `[undefined]`, on which `endOfSession` then throws.
* `Array.prototype.sort` with a numeric comparator is a stable sort; it is
  modelled by `List.insertionSort` (a stable sort) with the corresponding
  `≤`-test.
-/

namespace MindSort

/-- An item pair, reduced to the fields the selection algorithms read:
the stable `index` (unique within a session, aligning the item with the
external clustering primitive's output) and the `fromPosition` coordinate. -/
structure ItemPair where
  index : Nat
  pos : Int × Int
deriving DecidableEq, Repr

/-- Embeds `SelectionAlgorithm.shuffleArray` (src/SelectionAlgorithm.ts:15-21):
`todo.map(v => ({value: v, sort: Math.random()})).sort((a,b) => a.sort - b.sort).map(({value}) => value)`.
The random draw attached to position `i` is `rnd i`. -/
def shuffleArray (rnd : Nat → Int) (todo : List ItemPair) : List ItemPair :=
  ((todo.enum.map (fun p => (p.2, rnd p.1))).insertionSort
      (fun a b => a.2 ≤ b.2)).map (fun p => p.1)

/-- Embeds class `Cluster` (src/SelectionAlgorithm.ts:27-38).  The constructor sets
`sortingID = ID` and `timesSeen = 0`. -/
structure Cluster where
  ID : Nat
  sortingID : Nat
  timesSeen : Nat
  itemPairs : List ItemPair
deriving DecidableEq, Repr

/-- Embeds the `Cluster` constructor `new Cluster(ID, itemPairs)`
(src/SelectionAlgorithm.ts:33-38). -/
def Cluster.mkNew (ID : Nat) (itemPairs : List ItemPair) : Cluster :=
  { ID := ID, sortingID := ID, timesSeen := 0, itemPairs := itemPairs }

/-- Embeds `Cluster.increaseSortingID` (src/SelectionAlgorithm.ts:45-47):
`sortingID = (sortingID + 1) % numberOfClusters`. -/
def Cluster.increaseSortingID (numberOfClusters : Nat) (c : Cluster) : Cluster :=
  { c with sortingID := (c.sortingID + 1) % numberOfClusters }

/-- Embeds `Cluster.allWordsSeenOnce` (src/SelectionAlgorithm.ts:54-61):
`itemPairs.map(i => i.answers.length).filter(n => n - timesSeen === 1).length === itemPairs.length`.
The JavaScript subtraction is over signed numbers, hence `Int` here. -/
def Cluster.allWordsSeenOnce (ans : ItemPair → Nat) (c : Cluster) : Bool :=
  ((c.itemPairs.map (fun i => ans i)).filter
      (fun (numberOfAnswers : Nat) =>
        (numberOfAnswers : Int) - (c.timesSeen : Int) == 1)).length
    == c.itemPairs.length

/-- Embeds `Cluster.getTimesSeen` (src/SelectionAlgorithm.ts:69-74): if
`allWordsSeenOnce()` then `timesSeen += 1`; returns `timesSeen`.  The result
is the returned value paired with the mutated cluster. -/
def Cluster.getTimesSeen (ans : ItemPair → Nat) (c : Cluster) : Nat × Cluster :=
  if c.allWordsSeenOnce ans then
    (c.timesSeen + 1, { c with timesSeen := c.timesSeen + 1 })
  else
    (c.timesSeen, c)

/-- The mutable fields of a `ClusteringAlgorithm` instance
(src/SelectionAlgorithm.ts:82-104). -/
structure AlgState where
  clusters : List Cluster
  itemPairs : List ItemPair
  rounds : List Nat
  roundID : Nat
  neededPreviousRounds : Nat
  needThisRound : Nat
  needToGoToNextRound : Nat
deriving DecidableEq, Repr

/-- The `ClusteringAlgorithm` constructor (src/SelectionAlgorithm.ts:91-104):
`rounds = [4, 2, 1]`, `roundID = 0`, `neededPreviousRounds = 0`,
`needThisRound = needToGoToNextRound = rounds[0]`. -/
def mkClusteringAlgorithm (itemPairs : List ItemPair) (clusters : List Cluster) : AlgState :=
  { clusters := clusters
    itemPairs := itemPairs
    rounds := [4, 2, 1]
    roundID := 0
    neededPreviousRounds := 0
    needThisRound := [4, 2, 1].getD 0 0
    needToGoToNextRound := [4, 2, 1].getD 0 0 }

/-- The sorting key used by `sortTodoList`: `getClusterOfItem(a).sortingID`
(src/SelectionAlgorithm.ts:193-199 together with 207-211).
`getClusterOfItem` returns the *first* cluster whose `itemPairs` contains the
item.  When no cluster contains the item the source comparator would throw a
`TypeError`; the model uses the default key `0` there (the theorems that rely
on sorting assume every queue item belongs to a cluster, which is the
specification's input constraint). -/
def clusterSortKey (st : AlgState) (a : ItemPair) : Nat :=
  match st.clusters.find? (fun cluster => cluster.itemPairs.contains a) with
  | some cluster => cluster.sortingID
  | none => 0

/-- Embeds `ClusteringAlgorithm.sortTodoList` (src/SelectionAlgorithm.ts:193-199):
stable sort of the queue by ascending cluster `sortingID` (modelled by
insertion sort, which is stable, as `Array.prototype.sort` is required to
be). -/
def sortTodoList (st : AlgState) (todo : List ItemPair) : List ItemPair :=
  todo.insertionSort (fun a b => clusterSortKey st a ≤ clusterSortKey st b)

/-- Embeds `ClusteringAlgorithm.endOfSession` (src/SelectionAlgorithm.ts:178-184):
`todo.map(i => i.answers.length).filter(a => a === totalTimesSeen).length === todo.length
 && roundID + 1 === rounds.length` where `totalTimesSeen = rounds.reduce((a,b) => a+b)`.
(`reduce` on the non-empty `[4,2,1]` equals `List.sum`.) -/
def endOfSession (ans : ItemPair → Nat) (st : AlgState) (todo : List ItemPair) : Bool :=
  ((todo.map (fun i => ans i)).filter (fun a => a == st.rounds.sum)).length == todo.length
    && st.roundID + 1 == st.rounds.length

/-- The round-advancement step of `updateToDo` (src/SelectionAlgorithm.ts:124-129):
executed when `currentItemPair.answers.length > needToGoToNextRound`.
`rounds[roundID]` past the end of the schedule is JavaScript `undefined`
(poisoning the counters with `NaN`); the model reads `getD _ 0` there, and
every theorem touching that corner carries a no-overrun hypothesis. -/
def advanceRoundIfNeeded (ans : ItemPair → Nat) (currentItemPair : ItemPair)
    (st : AlgState) : AlgState :=
  if ans currentItemPair > st.needToGoToNextRound then
    { st with
      neededPreviousRounds := st.neededPreviousRounds + st.rounds.getD st.roundID 0
      roundID := st.roundID + 1
      needThisRound := st.rounds.getD (st.roundID + 1) 0
      needToGoToNextRound := st.needToGoToNextRound + st.rounds.getD (st.roundID + 1) 0 }
  else st

/-- The anti-repeat swap of `updateToDo` (src/SelectionAlgorithm.ts:154-163):
if the new head equals the previously shown item (the last element of the
incoming queue) and a second element exists, swap the first two elements. -/
def antiRepeatSwap (previousItem : Option ItemPair) : List ItemPair → List ItemPair
  | [] => []
  | currentFirst :: rest =>
    if previousItem == some currentFirst then
      match rest with
      | [] => currentFirst :: []
      | currentSecond :: rest2 => currentSecond :: currentFirst :: rest2
    else currentFirst :: rest

/-- Embeds `ClusteringAlgorithm.updateToDo` (src/SelectionAlgorithm.ts:116-170).
Returns `none` when the call aborts with an uncaught error: either the
just-answered item is in no cluster (`getClusterOfItem` yields `undefined`
and line 135 throws — the `StateInconsistency` failure of the spec), or the
steady-state queue is empty (the anti-repeat assignment materialises
`[undefined]` and `endOfSession` then throws). -/
def updateToDo (rnd : Nat → Int) (ans : ItemPair → Nat) (st : AlgState)
    (todo : List ItemPair) (currentItemPair : Option ItemPair) :
    Option (AlgState × List ItemPair) :=
  match currentItemPair with
  | none => some (st, sortTodoList st todo)
  | some cur =>
    if st.clusters.length == 0 then some (st, sortTodoList st todo)
    else
      let st1 := advanceRoundIfNeeded ans cur st
      match st1.clusters.findIdx? (fun cluster => cluster.itemPairs.contains cur) with
      | none => none
      | some idx =>
        match st1.clusters.get? idx with
        | none => none
        | some currentCluster =>
          let allSeenOnce := currentCluster.allWordsSeenOnce ans
          let seenPair := currentCluster.getTimesSeen ans
          let clusters1 := st1.clusters.set idx seenPair.2
          let timesSeenThisRound : Int :=
            (seenPair.1 : Int) - (st1.neededPreviousRounds : Int)
          let clusters2 :=
            if timesSeenThisRound == (st1.needThisRound : Int) then
              clusters1.map (fun c => c.increaseSortingID clusters1.length)
            else clusters1
          let st2 := { st1 with clusters := clusters2 }
          let previousItem := todo.getLast?
          let todo1 := if allSeenOnce then shuffleArray rnd todo else todo
          let todo2 := sortTodoList st2 todo1
          match todo2 with
          | [] => none
          | a :: rest =>
            let todo3 := antiRepeatSwap previousItem (a :: rest)
            some (st2, if endOfSession ans st2 todo3 then [] else todo3)

/-- Helper for `firstOccs`: keep an element iff it has not occurred before
(`seen` holds the values already emitted). -/
def firstOccsAux (seen : List Nat) : List Nat → List Nat
  | [] => []
  | a :: l => if a ∈ seen then firstOccsAux seen l else a :: firstOccsAux (a :: seen) l

/-- The deduplication `clustersIndexes.filter((value, index, self) => self.indexOf(value) === index)`
(src/SelectionAlgorithm.ts:254 and 309): keeps exactly the first occurrence
of each distinct label, in order of first occurrence. -/
def firstOccs (l : List Nat) : List Nat :=
  firstOccsAux [] l

/-- The initial-centroid loop of both `computeClusters` implementations
(src/SelectionAlgorithm.ts:241-245 and 297-301):
`for (let seed = 0.2; seed <= clusterAmount*0.2; seed += 0.2) cents.push(coordinates[Math.floor(seed*coordinates.length)])`
with `clusterAmount = 4`.

The source runs this loop in binary floating point.  Exact double-precision
analysis of the loop: the successive values of `seed` are the doubles
`fl(0.2)`, `2·fl(0.2)`, `fl(3·fl(0.2))` and `4·fl(0.2)`, the bound
`clusterAmount * 0.2` is exactly `4·fl(0.2)`, and the next value rounds to
exactly `1.0 > 4·fl(0.2)`, so the loop runs exactly 4 times.  Each `seed`
value exceeds the rational `k/5` by a relative error below `1.5·2⁻⁵²`, so for
every JavaScript array length `N < 2³²`, `Math.floor(seed * N)` equals
`⌊k·N/5⌋` (when `k·N/5` is not an integer it is at least `1/5` below the next
integer; when it is an integer `m`, the product rounds to a double in
`[m, m(1 + 2⁻⁵⁰))`).  The loop is therefore embedded over exact arithmetic,
with `⌊k·N/5⌋` written as natural division `k * N / 5`.  `cents[k]` is
`none` when the index is out of range (JavaScript pushes `undefined`, which
only happens for the empty coordinate list). -/
def centsLoop (coordinates : List (Int × Int)) : Nat → Nat → List (Option (Int × Int))
  | 0, _ => []
  | fuel + 1, seed =>
    if seed ≤ 4 then
      coordinates.get? (seed * coordinates.length / 5)
        :: centsLoop coordinates fuel (seed + 1)
    else []

/-- The centroid seeds computed from an item list: the `fromPosition`
coordinates are extracted (src/SelectionAlgorithm.ts:232-239) and the seed
loop is run over them (4 units of fuel suffice for the loop's 4 iterations;
the guard `seed ≤ 4` is the loop condition). -/
def computeCents (itemPairs : List ItemPair) : List (Option (Int × Int)) :=
  centsLoop (itemPairs.map (fun item => item.pos)) 4 1

/-- Embeds `KMeansClusteringAlgorithm.computeClusters` (src/SelectionAlgorithm.ts:229-266)
from the point where the external `kmeans` package has returned
`clustersIndexes` (one label per item, index-aligned; the spec's contract is
`clustersIndexes.length = itemPairs.length` with labels in `[0, 4)`).  The
package call itself is the external primitive, so its output is a parameter.
One cluster is built per distinct label, containing the items `itemPair` with
`clustersIndexes[itemPair.index] === clusterID`; an out-of-range `index`
reads `undefined`, which equals no label, hence `get?`. -/
def computeClustersKMeans (itemPairs : List ItemPair) (clustersIndexes : List Nat) :
    List Cluster :=
  (firstOccs clustersIndexes).map
    (fun clusterID =>
      Cluster.mkNew clusterID
        (itemPairs.filter (fun itemPair =>
          clustersIndexes.get? itemPair.index == some clusterID)))

/-- The cluster-filling loop of `RandomClusteringAlgorithm.computeClusters`
(src/SelectionAlgorithm.ts:327-335): `randomClusters[i] = new Cluster(i,
shuffledItemPairs.slice(totalAddedToCluster, totalAddedToCluster + neededClusterLengths[i]))`. -/
def buildRandomClusters (shuffledItemPairs : List ItemPair) :
    List Nat → Nat → Nat → List Cluster
  | [], _, _ => []
  | n :: rest, i, totalAddedToCluster =>
    Cluster.mkNew i ((shuffledItemPairs.drop totalAddedToCluster).take n)
      :: buildRandomClusters shuffledItemPairs rest (i + 1) (totalAddedToCluster + n)

/-- Embeds `RandomClusteringAlgorithm.computeClusters` (src/SelectionAlgorithm.ts:285-338):
compute the kmeans clusters only for their sizes, shuffle the full item list,
and slice it into contiguous chunks of those sizes. -/
def computeClustersRandom (rnd : Nat → Int) (itemPairs : List ItemPair)
    (clustersIndexes : List Nat) : List Cluster :=
  let kmeansClusters := computeClustersKMeans itemPairs clustersIndexes
  let neededClusterLengths := kmeansClusters.map (fun c => c.itemPairs.length)
  let shuffledItemPairs := shuffleArray rnd itemPairs
  buildRandomClusters shuffledItemPairs neededClusterLengths 0 0

/-- The mutable fields of a `RandomAlgorithm` instance
(src/SelectionAlgorithm.ts:345-355). -/
structure RandState where
  todoLength : Nat
  iteration : Nat
  maxIterations : Nat
deriving DecidableEq, Repr

/-- The `RandomAlgorithm` constructor (src/SelectionAlgorithm.ts:350-355):
`todoLength = todo.length`, `iteration = 0`, `maxIterations = 7`. -/
def mkRandomAlgorithm (todo : List ItemPair) : RandState :=
  { todoLength := todo.length, iteration := 0, maxIterations := 7 }

/-- Embeds `RandomAlgorithm.updateToDo` (src/SelectionAlgorithm.ts:365-374):
shuffle when `iteration == 0 || iteration % todoLength == 0`, increment
`iteration`, empty the queue when `iteration - 1 == maxIterations * todoLength`. -/
def randUpdateToDo (rnd : Nat → Int) (st : RandState) (todo : List ItemPair) :
    RandState × List ItemPair :=
  let todo1 :=
    if st.iteration == 0 || st.iteration % st.todoLength == 0 then
      shuffleArray rnd todo
    else todo
  let st1 := { st with iteration := st.iteration + 1 }
  let todo2 := if st1.iteration - 1 == st.maxIterations * st.todoLength then [] else todo1
  (st1, todo2)

/-- A session of the plain repeat scheduler: the scheduler is constructed on
the initial queue and the queue returned by each call is fed to the next call
(the integration glue threads `this.todo` through).  `rnds k` supplies the
random draws of call `k+1`. -/
def randRun (rnds : Nat → Nat → Int) (todo0 : List ItemPair) :
    Nat → RandState × List ItemPair
  | 0 => (mkRandomAlgorithm todo0, todo0)
  | k + 1 =>
    let p := randRun rnds todo0 k
    randUpdateToDo (rnds k) p.1 p.2

/-- One steady-or-bootstrap call of the clustering scheduler as observed by
the session: the queue passed in, the just-answered item (or `none` on the
first call), the answer-log snapshot and the random draws of that call. -/
structure CallData where
  rnd : Nat → Int
  ans : ItemPair → Nat
  todo : List ItemPair
  cur : Option ItemPair

/-- A sequence of `updateToDo` calls on one scheduler instance; `none` when
some call aborts (after which the session is over). -/
def runCalls (st : AlgState) : List CallData → Option AlgState
  | [] => some st
  | c :: cs =>
    match updateToDo c.rnd c.ans st c.todo c.cur with
    | none => none
    | some (st', _) => runCalls st' cs

/-- A call does not overrun the round schedule: if it triggers the
round-advancement branch, the next round still exists.  (On an overrun the
source reads `rounds[roundID]` past the end, whose `undefined` poisons
`needThisRound` and `needToGoToNextRound` with `NaN`; the specification
itself flags this corner as `RoundOverrun`.) -/
def callOk (st : AlgState) (c : CallData) : Bool :=
  match c.cur with
  | none => true
  | some cur =>
    st.clusters.length == 0
      || c.ans cur ≤ st.needToGoToNextRound
      || st.roundID + 1 < st.rounds.length

/-- Every call of a sequence satisfies `callOk` at the state it runs in. -/
def callsOk (st : AlgState) : List CallData → Bool
  | [] => true
  | c :: cs =>
    callOk st c &&
      match updateToDo c.rnd c.ans st c.todo c.cur with
      | none => true
      | some (st', _) => callsOk st' cs

/-- The sortingID domain invariant of spec §8: every cluster's `sortingID`
lies in `[0, numClusters)`, where `numClusters` is the number of clusters the
scheduler holds. -/
def sortingIDsInRange (clusters : List Cluster) : Prop :=
  ∀ c ∈ clusters, c.sortingID < clusters.length

instance (clusters : List Cluster) : Decidable (sortingIDsInRange clusters) :=
  List.decidableBAll _ clusters

/-! ### Concrete data for evaluating the model

A two-item session with one cluster, used to instantiate the theorems on
concrete inputs. -/

/-- A concrete item with index 0. -/
def itemA : ItemPair := ⟨0, (0, 0)⟩

/-- A concrete item with index 1. -/
def itemB : ItemPair := ⟨1, (10, 0)⟩

/-- A concrete item with index 2. -/
def itemC : ItemPair := ⟨2, (1, 1)⟩

/-- A concrete item belonging to no cluster of `stW`. -/
def itemOut : ItemPair := ⟨9, (5, 5)⟩

/-- A concrete three-item queue for the plain repeat scheduler. -/
def todoW3 : List ItemPair := [itemA, itemB, itemC]

/-- A concrete cluster holding `itemA` and `itemB`. -/
def clusterW : Cluster := Cluster.mkNew 0 [itemA, itemB]

/-- A freshly constructed clustering scheduler over `itemA, itemB`. -/
def stW : AlgState := mkClusteringAlgorithm [itemA, itemB] [clusterW]

/-- Concrete random draws (all zero). -/
def rndW : Nat → Int := fun _ => 0

/-- Concrete random draws for a whole plain-scheduler session. -/
def rndsW : Nat → Nat → Int := fun _ _ => 0

/-- Concrete answer-log snapshot: every item answered once. -/
def ansOneW : ItemPair → Nat := fun _ => 1

/-- Concrete answer-log snapshot: every item answered five times. -/
def ansFiveW : ItemPair → Nat := fun _ => 5

/-- Result of a concrete steady-state call on `stW` (everything answered once). -/
def resOneW : AlgState × List ItemPair :=
  (updateToDo rndW ansOneW stW [itemA, itemB] (some itemA)).getD (stW, [])

/-- Result of a concrete steady-state call on `stW` that crosses the first
round boundary (the answered item has five answers, `needToGoToNextRound` is 4). -/
def resFiveW : AlgState × List ItemPair :=
  (updateToDo rndW ansFiveW stW [itemA, itemB] (some itemA)).getD (stW, [])

/-- The round-crossing call as a `CallData`. -/
def callFiveW : CallData := ⟨rndW, ansFiveW, [itemA, itemB], some itemA⟩

/-- Scheduler state after running `callFiveW` on `stW`. -/
def runFiveW : AlgState := (runCalls stW [callFiveW]).getD stW

/-! ### Helper lemmas -/

theorem advanceRound_clusters (ans : ItemPair → Nat) (cur : ItemPair) (st : AlgState) :
    (advanceRoundIfNeeded ans cur st).clusters = st.clusters := by
  unfold advanceRoundIfNeeded; split <;> rfl

theorem advanceRound_rounds (ans : ItemPair → Nat) (cur : ItemPair) (st : AlgState) :
    (advanceRoundIfNeeded ans cur st).rounds = st.rounds := by
  unfold advanceRoundIfNeeded; split <;> rfl

theorem shuffleArray_perm (rnd : Nat → Int) (l : List ItemPair) :
    (shuffleArray rnd l).Perm l := by
  unfold shuffleArray
  have h2 := (List.perm_insertionSort (fun a b => a.2 ≤ b.2)
      (l.enum.map (fun p => (p.2, rnd p.1)))).map (fun p => p.1)
  have h3 : ((l.enum.map (fun p => (p.2, rnd p.1))).map (fun p => p.1)) = l := by
    rw [List.map_map]
    exact List.enum_map_snd l
  rw [h3] at h2
  exact h2

theorem sortTodoList_perm (st : AlgState) (l : List ItemPair) :
    (sortTodoList st l).Perm l :=
  List.perm_insertionSort _ l

theorem antiRepeatSwap_perm (prev : Option ItemPair) (l : List ItemPair) :
    (antiRepeatSwap prev l).Perm l := by
  cases l with
  | nil => exact List.Perm.refl _
  | cons a rest =>
    cases rest with
    | nil =>
      simp only [antiRepeatSwap]
      split
      · exact List.Perm.refl _
      · exact List.Perm.refl _
    | cons b rest2 =>
      simp only [antiRepeatSwap]
      split
      · exact List.Perm.swap a b rest2
      · exact List.Perm.refl _

theorem filter_length_eq_iff {α : Type} (p : α → Bool) (l : List α) :
    ((l.filter p).length = l.length) ↔ ∀ a ∈ l, p a = true := by
  rw [← List.countP_eq_length_filter]
  exact List.countP_eq_length

theorem endOfSession_iff (ans : ItemPair → Nat) (st : AlgState) (q : List ItemPair) :
    endOfSession ans st q = true
      ↔ (∀ i ∈ q, ans i = st.rounds.sum) ∧ st.roundID + 1 = st.rounds.length := by
  unfold endOfSession
  rw [Bool.and_eq_true]
  apply and_congr
  · have h := filter_length_eq_iff (fun (a : Nat) => a == st.rounds.sum)
      (q.map (fun i => ans i))
    rw [List.length_map] at h
    rw [beq_iff_eq, h, List.forall_mem_map]
    simp only [beq_iff_eq]
  · exact beq_iff_eq

/-- Shape of a successful steady-state `updateToDo` call: the round schedule
is unchanged and the returned queue is the anti-repeat-swapped sorted queue
(a non-empty permutation of the input), emptied iff `endOfSession` holds. -/
theorem steady_some_elim {rnd : Nat → Int} {ans : ItemPair → Nat} {st : AlgState}
    {todo : List ItemPair} {cur : ItemPair} {st' : AlgState} {todo' : List ItemPair}
    (hcl : st.clusters ≠ [])
    (h : updateToDo rnd ans st todo (some cur) = some (st', todo')) :
    st'.rounds = st.rounds ∧
    ∃ todo2 : List ItemPair,
      todo2 ≠ [] ∧ todo2.Perm todo ∧
      todo' = (if endOfSession ans st' (antiRepeatSwap todo.getLast? todo2) then []
               else antiRepeatSwap todo.getLast? todo2) := by
  have hne0 : st.clusters.length ≠ 0 := by
    simpa [List.length_eq_zero] using hcl
  have h0 : (st.clusters.length == 0) = false := by simpa using hne0
  rw [updateToDo] at h
  rw [h0] at h
  simp only [Bool.false_eq_true, if_false] at h
  split at h
  · exact absurd h (by simp)
  · rename_i idx hfind
    split at h
    · exact absurd h (by simp)
    · rename_i currentCluster hget
      split at h
      · exact absurd h (by simp)
      · rename_i a rest hsort
        simp only [Option.some.injEq, Prod.mk.injEq] at h
        obtain ⟨hst, htd⟩ := h
        constructor
        · rw [← hst]
          exact advanceRound_rounds ans cur st
        · refine ⟨a :: rest, by simp, ?_, ?_⟩
          · rw [← hsort]
            refine (sortTodoList_perm _ _).trans ?_
            cases hb : currentCluster.allWordsSeenOnce ans
            · simp only [hb, Bool.false_eq_true, if_false]
              exact List.Perm.refl todo
            · simp only [hb, if_true]
              exact shuffleArray_perm rnd todo
          · rw [← htd, ← hst]

/-- C10: `shuffleArray` returns a permutation of its input — same length and
same element multiplicities — for every outcome of the random draws. -/
theorem claim_C10_shuffle_perm (rnd : Nat → Int) (todo : List ItemPair) :
    (shuffleArray rnd todo).Perm todo
    ∧ (shuffleArray rnd todo).length = todo.length
    ∧ ∀ x, (shuffleArray rnd todo).count x = todo.count x :=
  ⟨shuffleArray_perm rnd todo, (shuffleArray_perm rnd todo).length_eq,
    fun x => (shuffleArray_perm rnd todo).count_eq x⟩

/-- C2: `allWordsSeenOnce` is true iff every member's answer count minus the
cluster's `timesSeen` is exactly 1, and `getTimesSeen` increments `timesSeen`
by exactly 1 when that check holds, leaves it unchanged otherwise, and
returns the resulting value. -/
theorem claim_C2_lockstep (ans : ItemPair → Nat) (c : Cluster) :
    (c.allWordsSeenOnce ans = true
        ↔ ∀ i ∈ c.itemPairs, (ans i : Int) - (c.timesSeen : Int) = 1)
    ∧ (c.getTimesSeen ans).2.timesSeen
        = (if c.allWordsSeenOnce ans then c.timesSeen + 1 else c.timesSeen)
    ∧ (c.getTimesSeen ans).1 = (c.getTimesSeen ans).2.timesSeen := by
  refine ⟨?_, ?_, ?_⟩
  · unfold Cluster.allWordsSeenOnce
    have h := filter_length_eq_iff
      (fun (numberOfAnswers : Nat) =>
        (numberOfAnswers : Int) - (c.timesSeen : Int) == 1)
      (c.itemPairs.map (fun i => ans i))
    rw [List.length_map] at h
    rw [beq_iff_eq, h, List.forall_mem_map]
    simp only [beq_iff_eq]
  · unfold Cluster.getTimesSeen
    split <;> rfl
  · unfold Cluster.getTimesSeen
    split <;> rfl

/-- C2 witness: on a one-item cluster whose item was answered once,
`allWordsSeenOnce` holds. -/
theorem claim_C2_witness :
    Cluster.allWordsSeenOnce ansOneW (Cluster.mkNew 0 [itemA]) = true :=
  (claim_C2_lockstep ansOneW (Cluster.mkNew 0 [itemA])).1.mpr (by decide)

/-- C1: a successful steady-state `updateToDo` call returns an empty queue
iff every queue item's answer count equals the sum of the round schedule and
the (post-call) `roundID` is the last round index; otherwise the returned
queue is non-empty. -/
theorem claim_C1_termination {rnd : Nat → Int} {ans : ItemPair → Nat}
    {st : AlgState} {todo : List ItemPair} {cur : ItemPair} {st' : AlgState}
    {todo' : List ItemPair}
    (hcl : st.clusters ≠ [])
    (h : updateToDo rnd ans st todo (some cur) = some (st', todo')) :
    todo' = []
      ↔ (∀ i ∈ todo, ans i = st.rounds.sum) ∧ st'.roundID + 1 = st.rounds.length := by
  obtain ⟨hrounds, todo2, hne, hperm, htd⟩ := steady_some_elim hcl h
  have hqperm : (antiRepeatSwap todo.getLast? todo2).Perm todo :=
    (antiRepeatSwap_perm _ _).trans hperm
  have hiff : endOfSession ans st' (antiRepeatSwap todo.getLast? todo2) = true
      ↔ (∀ i ∈ todo, ans i = st.rounds.sum) ∧ st'.roundID + 1 = st.rounds.length := by
    rw [endOfSession_iff, hrounds]
    apply and_congr _ Iff.rfl
    exact ⟨fun hall i hi => hall i (hqperm.mem_iff.mpr hi),
      fun hall i hi => hall i (hqperm.mem_iff.mp hi)⟩
  have hqne : antiRepeatSwap todo.getLast? todo2 ≠ [] := by
    intro h0
    apply hne
    have := (antiRepeatSwap_perm todo.getLast? todo2).length_eq
    rw [h0] at this
    exact List.length_eq_zero.mp this.symm
  rw [htd]
  cases hend : endOfSession ans st' (antiRepeatSwap todo.getLast? todo2)
  · rw [if_neg (by simp)]
    constructor
    · intro h0
      exact absurd h0 hqne
    · intro hr
      exact absurd (hiff.mpr hr) (by simp [hend])
  · rw [if_pos rfl]
    exact ⟨fun _ => hiff.mp hend, fun _ => rfl⟩

/-- C1 witness: a concrete steady-state call whose queue still has answers
outstanding returns a non-empty queue. -/
theorem claim_C1_witness : resOneW.2 ≠ [] := by
  intro he
  have h := claim_C1_termination (by decide)
    (by decide : updateToDo rndW ansOneW stW [itemA, itemB] (some itemA)
      = some (resOneW.1, resOneW.2))
  exact absurd (h.mp he) (by decide)

theorem antiRepeatSwap_head_ne {l : List ItemPair} {prv : ItemPair}
    (hl : 2 ≤ l.length) (hnd : l.Nodup) :
    (antiRepeatSwap (some prv) l).head? ≠ some prv := by
  cases l with
  | nil => simp at hl
  | cons a rest =>
    cases rest with
    | nil => simp at hl
    | cons b rest2 =>
      simp only [antiRepeatSwap]
      split
      · rename_i hcond
        have hab : a ≠ b := by
          have hna : a ∉ b :: rest2 := (List.nodup_cons.mp hnd).1
          exact fun hab => hna (hab ▸ List.mem_cons_self b rest2)
        have hpa : prv = a := by
          have h2 := hcond
          rw [beq_iff_eq] at h2
          exact Option.some.inj h2
        intro hcontra
        rw [List.head?_cons] at hcontra
        exact hab (hpa.symm.trans (Option.some.inj hcontra).symm)
      · rename_i hcond
        have hpa : ¬ prv = a := by
          intro he
          exact hcond (beq_iff_eq.mpr (by rw [he]))
        intro hcontra
        rw [List.head?_cons] at hcontra
        exact hpa (Option.some.inj hcontra).symm

/-- C3: for a steady-state call with an input queue of length ≥ 2 and no
duplicate items, the head of the returned (non-emptied) queue differs from
the previously presented item, the last element of the input queue. -/
theorem claim_C3_anti_repeat {rnd : Nat → Int} {ans : ItemPair → Nat}
    {st : AlgState} {todo : List ItemPair} {cur : ItemPair} {st' : AlgState}
    {todo' : List ItemPair}
    (hcl : st.clusters ≠ [])
    (h : updateToDo rnd ans st todo (some cur) = some (st', todo'))
    (hlen : 2 ≤ todo.length) (hnd : todo.Nodup) (hne' : todo' ≠ []) :
    todo'.head? ≠ todo.getLast? := by
  obtain ⟨hrounds, todo2, hne, hperm, htd⟩ := steady_some_elim hcl h
  have htne : todo ≠ [] := by
    intro h0
    rw [h0] at hlen
    simp at hlen
  have hendf : endOfSession ans st' (antiRepeatSwap todo.getLast? todo2) = false := by
    cases hend : endOfSession ans st' (antiRepeatSwap todo.getLast? todo2)
    · rfl
    · rw [htd, hend, if_pos rfl] at hne'
      exact absurd rfl hne'
  rw [htd, hendf, if_neg (by simp)]
  rw [List.getLast?_eq_getLast todo htne]
  exact antiRepeatSwap_head_ne
    (by rw [hperm.length_eq]; exact hlen)
    (hperm.nodup_iff.mpr hnd)

/-- C3 witness: in the concrete call `resOneW`, the returned head is not the
previously shown item. -/
theorem claim_C3_witness : resOneW.2.head? ≠ [itemA, itemB].getLast? :=
  claim_C3_anti_repeat (by decide)
    (by decide : updateToDo rndW ansOneW stW [itemA, itemB] (some itemA)
      = some (resOneW.1, resOneW.2))
    (by decide) (by decide) (by decide)

/-- C7: a steady-state call whose just-answered item belongs to no cluster
aborts with an error (the spec's `StateInconsistency`; concretely the source
dereferences the `undefined` returned by `getClusterOfItem` and throws)
instead of returning a queue. -/
theorem claim_C7_missing_item (rnd : Nat → Int) (ans : ItemPair → Nat)
    (st : AlgState) (todo : List ItemPair) (cur : ItemPair)
    (hcl : st.clusters ≠ [])
    (hmiss : ∀ cluster ∈ st.clusters, cur ∉ cluster.itemPairs) :
    updateToDo rnd ans st todo (some cur) = none := by
  unfold updateToDo
  have hne : st.clusters.length ≠ 0 := by
    simpa [List.length_eq_zero] using hcl
  have h0 : (st.clusters.length == 0) = false := by
    simpa using hne
  rw [h0]
  simp only [Bool.false_eq_true, if_false]
  have hfind : (advanceRoundIfNeeded ans cur st).clusters.findIdx?
      (fun cluster => cluster.itemPairs.contains cur) = none := by
    rw [List.findIdx?_eq_none_iff]
    intro x hx
    rw [advanceRound_clusters] at hx
    exact Bool.eq_false_iff.mpr (fun hc => hmiss x hx (List.elem_iff.mp hc))
  rw [hfind]

/-- C7 witness: the concrete scheduler `stW` aborts when fed `itemOut`,
which is in no cluster. -/
theorem claim_C7_witness :
    updateToDo rndW ansOneW stW [itemA, itemB] (some itemOut) = none :=
  claim_C7_missing_item rndW ansOneW stW [itemA, itemB] itemOut
    (by decide) (by decide)

theorem advanceRound_mono (ans : ItemPair → Nat) (cur : ItemPair) (st : AlgState) :
    st.roundID ≤ (advanceRoundIfNeeded ans cur st).roundID
    ∧ st.neededPreviousRounds ≤ (advanceRoundIfNeeded ans cur st).neededPreviousRounds
    ∧ st.needToGoToNextRound ≤ (advanceRoundIfNeeded ans cur st).needToGoToNextRound := by
  unfold advanceRoundIfNeeded
  split
  · exact ⟨Nat.le_succ _, Nat.le_add_right _ _, Nat.le_add_right _ _⟩
  · exact ⟨le_refl _, le_refl _, le_refl _⟩

/-- A successful `updateToDo` call changes the four progress counters exactly
as `advanceRoundIfNeeded` does (bootstrap calls change none of them). -/
theorem updateToDo_counters {rnd : Nat → Int} {ans : ItemPair → Nat}
    {st : AlgState} {todo : List ItemPair} {cur : Option ItemPair}
    {st' : AlgState} {todo' : List ItemPair}
    (h : updateToDo rnd ans st todo cur = some (st', todo')) :
    (st'.roundID = st.roundID ∧ st'.neededPreviousRounds = st.neededPreviousRounds
      ∧ st'.needThisRound = st.needThisRound
      ∧ st'.needToGoToNextRound = st.needToGoToNextRound)
    ∨ ∃ c, cur = some c
        ∧ st'.roundID = (advanceRoundIfNeeded ans c st).roundID
        ∧ st'.neededPreviousRounds = (advanceRoundIfNeeded ans c st).neededPreviousRounds
        ∧ st'.needThisRound = (advanceRoundIfNeeded ans c st).needThisRound
        ∧ st'.needToGoToNextRound = (advanceRoundIfNeeded ans c st).needToGoToNextRound := by
  cases cur with
  | none =>
    rw [updateToDo] at h
    simp only [Option.some.injEq, Prod.mk.injEq] at h
    obtain ⟨hst, -⟩ := h
    subst hst
    exact Or.inl ⟨rfl, rfl, rfl, rfl⟩
  | some c =>
    rw [updateToDo] at h
    cases hcl0 : (st.clusters.length == 0) with
    | true =>
      rw [hcl0, if_pos rfl] at h
      simp only [Option.some.injEq, Prod.mk.injEq] at h
      obtain ⟨hst, -⟩ := h
      subst hst
      exact Or.inl ⟨rfl, rfl, rfl, rfl⟩
    | false =>
      rw [hcl0] at h
      simp only [Bool.false_eq_true, if_false] at h
      split at h
      · exact absurd h (by simp)
      · split at h
        · exact absurd h (by simp)
        · split at h
          · exact absurd h (by simp)
          · simp only [Option.some.injEq, Prod.mk.injEq] at h
            obtain ⟨hst, -⟩ := h
            refine Or.inr ⟨c, rfl, ?_, ?_, ?_, ?_⟩ <;> rw [← hst]

theorem step_mono {rnd : Nat → Int} {ans : ItemPair → Nat} {st : AlgState}
    {todo : List ItemPair} {cur : Option ItemPair} {st' : AlgState}
    {todo' : List ItemPair}
    (h : updateToDo rnd ans st todo cur = some (st', todo')) :
    st.roundID ≤ st'.roundID
    ∧ st.neededPreviousRounds ≤ st'.neededPreviousRounds
    ∧ st.needToGoToNextRound ≤ st'.needToGoToNextRound := by
  rcases updateToDo_counters h with ⟨h1, h2, -, h4⟩ | ⟨c, -, h1, h2, -, h4⟩
  · rw [h1, h2, h4]
    exact ⟨le_refl _, le_refl _, le_refl _⟩
  · rw [h1, h2, h4]
    exact advanceRound_mono ans c st

/-- C4 counterexample: the constructed scheduler has `needThisRound = 4`;
after one steady-state call that crosses the first round boundary (the
answered item has 5 answers, `needToGoToNextRound` is 4), `needThisRound` is
reset to `rounds[1] = 2 < 4`, so it is not non-decreasing. -/
theorem claim_C4_counterexample :
    ¬ (∀ st₂ todo₂,
        updateToDo rndW ansFiveW stW [itemA, itemB] (some itemA) = some (st₂, todo₂)
        → stW.needThisRound ≤ st₂.needThisRound) := by
  intro hall
  have h := hall resFiveW.1 resFiveW.2 (by decide)
  exact absurd h (by decide)

/-- C4 (amended): across every sequence of `updateToDo` calls within one
session, `roundID`, `neededPreviousRounds` and `needToGoToNextRound` are
non-decreasing (assuming no call overruns the round schedule — the corner the
spec separately flags as `RoundOverrun`, where the source's counters become
`NaN`).  `needThisRound` is excluded: a round advancement resets it to the
new round's quota, and the schedule `[4, 2, 1]` decreases. -/
theorem claim_C4_amended_monotone {st st' : AlgState} {calls : List CallData}
    (hok : callsOk st calls = true)
    (h : runCalls st calls = some st') :
    st.roundID ≤ st'.roundID
    ∧ st.neededPreviousRounds ≤ st'.neededPreviousRounds
    ∧ st.needToGoToNextRound ≤ st'.needToGoToNextRound := by
  induction calls generalizing st with
  | nil =>
    rw [runCalls] at h
    obtain rfl := Option.some.inj h
    exact ⟨le_refl _, le_refl _, le_refl _⟩
  | cons c cs ih =>
    rw [runCalls] at h
    rw [callsOk, Bool.and_eq_true] at hok
    obtain ⟨-, hok2⟩ := hok
    cases hu : updateToDo c.rnd c.ans st c.todo c.cur with
    | none =>
      rw [hu] at h
      exact absurd h (by simp)
    | some p =>
      obtain ⟨st₂, q⟩ := p
      rw [hu] at h hok2
      have hm := step_mono hu
      have hrest := ih hok2 h
      exact ⟨le_trans hm.1 hrest.1, le_trans hm.2.1 hrest.2.1,
        le_trans hm.2.2 hrest.2.2⟩

/-- C4 witness: the three monotone counters do not decrease across the
concrete round-crossing call. -/
theorem claim_C4_witness :
    stW.roundID ≤ runFiveW.roundID
    ∧ stW.neededPreviousRounds ≤ runFiveW.neededPreviousRounds
    ∧ stW.needToGoToNextRound ≤ runFiveW.needToGoToNextRound :=
  @claim_C4_amended_monotone stW runFiveW [callFiveW] (by decide) (by decide)

theorem mem_firstOccsAux (x : Nat) :
    ∀ (l seen : List Nat), x ∈ firstOccsAux seen l ↔ (x ∈ l ∧ x ∉ seen) := by
  intro l
  induction l with
  | nil =>
    intro seen
    simp [firstOccsAux]
  | cons a l ih =>
    intro seen
    by_cases ha : a ∈ seen
    · rw [firstOccsAux, if_pos ha, ih]
      constructor
      · rintro ⟨hx, hs⟩
        exact ⟨List.mem_cons_of_mem a hx, hs⟩
      · rintro ⟨hx, hs⟩
        rcases List.mem_cons.mp hx with rfl | hx'
        · exact absurd ha hs
        · exact ⟨hx', hs⟩
    · rw [firstOccsAux, if_neg ha]
      rw [List.mem_cons, ih]
      constructor
      · rintro (rfl | ⟨hx, hs⟩)
        · exact ⟨List.mem_cons_self _ _, ha⟩
        · exact ⟨List.mem_cons_of_mem a hx,
            fun hxs => hs (List.mem_cons_of_mem a hxs)⟩
      · rintro ⟨hx, hs⟩
        rcases List.mem_cons.mp hx with rfl | hx'
        · exact Or.inl rfl
        · by_cases hxa : x = a
          · exact Or.inl hxa
          · refine Or.inr ⟨hx', fun hxs => ?_⟩
            rcases List.mem_cons.mp hxs with h1 | h2
            · exact hxa h1
            · exact hs h2

theorem mem_firstOccs (x : Nat) (l : List Nat) : x ∈ firstOccs l ↔ x ∈ l := by
  rw [firstOccs, mem_firstOccsAux]
  simp

theorem firstOccsAux_nodup : ∀ (l seen : List Nat), (firstOccsAux seen l).Nodup := by
  intro l
  induction l with
  | nil =>
    intro seen
    rw [firstOccsAux]
    exact List.nodup_nil
  | cons a l ih =>
    intro seen
    by_cases ha : a ∈ seen
    · rw [firstOccsAux, if_pos ha]
      exact ih seen
    · rw [firstOccsAux, if_neg ha]
      rw [List.nodup_cons]
      refine ⟨?_, ih (a :: seen)⟩
      rw [mem_firstOccsAux]
      rintro ⟨-, hs⟩
      exact hs (List.mem_cons_self _ _)

theorem firstOccs_nodup (l : List Nat) : (firstOccs l).Nodup :=
  firstOccsAux_nodup l []

theorem buildRandomClusters_length (sh : List ItemPair) :
    ∀ (needs : List Nat) (i t : Nat),
      (buildRandomClusters sh needs i t).length = needs.length := by
  intro needs
  induction needs with
  | nil => intro i t; rfl
  | cons n rest ih =>
    intro i t
    simp only [buildRandomClusters, List.length_cons]
    rw [ih]

theorem buildRandomClusters_sortingID (sh : List ItemPair) :
    ∀ (needs : List Nat) (i t : Nat) (c : Cluster),
      c ∈ buildRandomClusters sh needs i t → c.sortingID < i + needs.length := by
  intro needs
  induction needs with
  | nil =>
    intro i t c hc
    exact absurd hc (by simp [buildRandomClusters])
  | cons n rest ih =>
    intro i t c hc
    rw [buildRandomClusters, List.mem_cons] at hc
    rcases hc with rfl | hc
    · simp only [Cluster.mkNew, List.length_cons]
      omega
    · have := ih (i + 1) (t + n) c hc
      simp only [List.length_cons]
      omega

/-- Which clusters a successful `updateToDo` call can leave behind: either
unchanged (bootstrap), or the current cluster's `timesSeen` update, possibly
followed by the uniform `sortingID` rotation. -/
theorem updateToDo_clusters {rnd : Nat → Int} {ans : ItemPair → Nat}
    {st : AlgState} {todo : List ItemPair} {cur : Option ItemPair}
    {st' : AlgState} {todo' : List ItemPair}
    (h : updateToDo rnd ans st todo cur = some (st', todo')) :
    st'.clusters = st.clusters
    ∨ ∃ idx cc, st.clusters.get? idx = some cc
        ∧ (st'.clusters = st.clusters.set idx (cc.getTimesSeen ans).2
          ∨ st'.clusters = (st.clusters.set idx (cc.getTimesSeen ans).2).map
              (fun c => c.increaseSortingID
                (st.clusters.set idx (cc.getTimesSeen ans).2).length)) := by
  cases cur with
  | none =>
    rw [updateToDo] at h
    simp only [Option.some.injEq, Prod.mk.injEq] at h
    obtain ⟨hst, -⟩ := h
    subst hst
    exact Or.inl rfl
  | some c =>
    rw [updateToDo] at h
    cases hcl0 : (st.clusters.length == 0) with
    | true =>
      rw [hcl0, if_pos rfl] at h
      simp only [Option.some.injEq, Prod.mk.injEq] at h
      obtain ⟨hst, -⟩ := h
      subst hst
      exact Or.inl rfl
    | false =>
      rw [hcl0] at h
      simp only [Bool.false_eq_true, if_false] at h
      split at h
      · exact absurd h (by simp)
      · rename_i idx hfind
        split at h
        · exact absurd h (by simp)
        · rename_i currentCluster hget
          split at h
          · exact absurd h (by simp)
          · rename_i a rest hsort
            simp only [Option.some.injEq, Prod.mk.injEq] at h
            obtain ⟨hst, -⟩ := h
            rw [advanceRound_clusters] at hget
            refine Or.inr ⟨idx, currentCluster, hget, ?_⟩
            rw [← hst]
            cases hb : (((currentCluster.getTimesSeen ans).1 : Int)
                - ((advanceRoundIfNeeded ans c st).neededPreviousRounds : Int)
                == ((advanceRoundIfNeeded ans c st).needThisRound : Int)) with
            | false =>
              refine Or.inl ?_
              simp [advanceRound_clusters]
            | true =>
              refine Or.inr ?_
              simp [advanceRound_clusters]

theorem getTimesSeen_sortingID (ans : ItemPair → Nat) (cc : Cluster) :
    (cc.getTimesSeen ans).2.sortingID = cc.sortingID := by
  unfold Cluster.getTimesSeen
  split <;> rfl

theorem sortingIDs_preserved {rnd : Nat → Int} {ans : ItemPair → Nat}
    {st : AlgState} {todo : List ItemPair} {cur : Option ItemPair}
    {st' : AlgState} {todo' : List ItemPair}
    (hinv : sortingIDsInRange st.clusters)
    (h : updateToDo rnd ans st todo cur = some (st', todo')) :
    sortingIDsInRange st'.clusters := by
  rcases updateToDo_clusters h with heq | ⟨idx, cc, hget, heq | heq⟩
  · rw [heq]
    exact hinv
  · rw [heq]
    intro c hc
    rw [List.length_set]
    rcases List.mem_or_eq_of_mem_set hc with hc' | rfl
    · exact hinv c hc'
    · rw [getTimesSeen_sortingID]
      exact hinv cc (List.get?_mem hget)
  · rw [heq]
    intro c hc
    rw [List.length_map, List.length_set]
    rcases List.mem_map.mp hc with ⟨c0, hc0, rfl⟩
    show (c0.sortingID + 1) % (st.clusters.set idx (cc.getTimesSeen ans).2).length
      < st.clusters.length
    rw [List.length_set]
    apply Nat.mod_lt
    have hpos : 0 < (st.clusters.set idx (cc.getTimesSeen ans).2).length :=
      List.length_pos.mpr (List.ne_nil_of_mem hc0)
    rw [List.length_set] at hpos
    exact hpos

/-- C6 counterexample: the external primitive's contract only promises one
label in `[0, K)` per item.  With the contract-conforming output `[1, 1]`
(both items labelled 1, e.g. empty clusters in the primitive's result), the
vector-based strategy builds a single cluster with `ID = sortingID = 1`, so
`sortingID = 1 ∉ [0, 1)` already at construction. -/
theorem claim_C6_counterexample :
    ¬ sortingIDsInRange
        (mkClusteringAlgorithm [itemA, itemB]
          (computeClustersKMeans [itemA, itemB] [1, 1])).clusters := by
  decide

/-- C6 (amended): the size-matched random strategy always constructs
clusters with `sortingID ∈ [0, numClusters)`; the vector-based strategy does
whenever every label is below the number of distinct labels (e.g. when all
`K` labels occur); and every `updateToDo` call preserves the invariant. -/
theorem claim_C6_amended :
    (∀ (rnd : Nat → Int) (itemPairs : List ItemPair) (clustersIndexes : List Nat),
        sortingIDsInRange (computeClustersRandom rnd itemPairs clustersIndexes))
    ∧ (∀ (itemPairs : List ItemPair) (clustersIndexes : List Nat),
        (∀ l ∈ clustersIndexes, l < (firstOccs clustersIndexes).length)
        → sortingIDsInRange (computeClustersKMeans itemPairs clustersIndexes))
    ∧ (∀ (rnd : Nat → Int) (ans : ItemPair → Nat) (st : AlgState)
        (todo : List ItemPair) (cur : Option ItemPair) (st' : AlgState)
        (todo' : List ItemPair),
        sortingIDsInRange st.clusters
        → updateToDo rnd ans st todo cur = some (st', todo')
        → sortingIDsInRange st'.clusters) := by
  refine ⟨?_, ?_, ?_⟩
  · intro rnd itemPairs clustersIndexes c hc
    unfold computeClustersRandom at hc ⊢
    rw [buildRandomClusters_length]
    have := buildRandomClusters_sortingID _ _ _ _ _ hc
    omega
  · intro itemPairs clustersIndexes hgap c hc
    unfold computeClustersKMeans at hc ⊢
    rw [List.length_map]
    rcases List.mem_map.mp hc with ⟨cid, hcid, rfl⟩
    exact hgap cid ((mem_firstOccs cid clustersIndexes).mp hcid)
  · intro rnd ans st todo cur st' todo' hinv h
    exact sortingIDs_preserved hinv h

/-- C6 witness: the invariant holds after the concrete call `resOneW`. -/
theorem claim_C6_witness : sortingIDsInRange resOneW.1.clusters :=
  claim_C6_amended.2.2 rndW ansOneW stW [itemA, itemB] (some itemA)
    resOneW.1 resOneW.2 (by decide) (by decide)

theorem shuffleArray_length (rnd : Nat → Int) (l : List ItemPair) :
    (shuffleArray rnd l).length = l.length :=
  (shuffleArray_perm rnd l).length_eq

theorem randUpdateToDo_fields (rnd : Nat → Int) (st : RandState) (todo : List ItemPair) :
    (randUpdateToDo rnd st todo).1.iteration = st.iteration + 1
    ∧ (randUpdateToDo rnd st todo).1.todoLength = st.todoLength
    ∧ (randUpdateToDo rnd st todo).1.maxIterations = st.maxIterations :=
  ⟨rfl, rfl, rfl⟩

theorem randUpdateToDo_queue (rnd : Nat → Int) (st : RandState) (todo : List ItemPair) :
    (randUpdateToDo rnd st todo).2
      = (if st.iteration + 1 - 1 == st.maxIterations * st.todoLength then []
         else if st.iteration == 0 || st.iteration % st.todoLength == 0
              then shuffleArray rnd todo else todo) := rfl

/-- Invariant of a plain-scheduler session on a length-3 queue: after `k`
calls, `iteration = k`, the configuration is unchanged, and up to call 21 the
queue still has its 3 items. -/
theorem randRun_state (rnds : Nat → Nat → Int) (todo0 : List ItemPair)
    (h3 : todo0.length = 3) :
    ∀ k, (randRun rnds todo0 k).1.iteration = k
      ∧ (randRun rnds todo0 k).1.todoLength = 3
      ∧ (randRun rnds todo0 k).1.maxIterations = 7
      ∧ (k ≤ 21 → (randRun rnds todo0 k).2.length = 3) := by
  intro k
  induction k with
  | zero => exact ⟨rfl, h3, rfl, fun _ => h3⟩
  | succ k ih =>
    obtain ⟨hit, htl, hmx, hlen⟩ := ih
    refine ⟨?_, ?_, ?_, ?_⟩
    · show (randUpdateToDo (rnds k) (randRun rnds todo0 k).1
          (randRun rnds todo0 k).2).1.iteration = k + 1
      rw [(randUpdateToDo_fields _ _ _).1, hit]
    · show (randUpdateToDo (rnds k) (randRun rnds todo0 k).1
          (randRun rnds todo0 k).2).1.todoLength = 3
      rw [(randUpdateToDo_fields _ _ _).2.1, htl]
    · show (randUpdateToDo (rnds k) (randRun rnds todo0 k).1
          (randRun rnds todo0 k).2).1.maxIterations = 7
      rw [(randUpdateToDo_fields _ _ _).2.2, hmx]
    · intro hk21
      show (randUpdateToDo (rnds k) (randRun rnds todo0 k).1
          (randRun rnds todo0 k).2).2.length = 3
      rw [randUpdateToDo_queue, hit, htl, hmx]
      have hc1 : ((k + 1 - 1 == 7 * 3)) = false := by
        simp only [Nat.add_sub_cancel, beq_eq_false_iff_ne, ne_eq]
        omega
      rw [hc1, if_neg (by simp)]
      have hlen' := hlen (by omega)
      cases hc2 : (k == 0 || k % 3 == 0) with
      | false =>
        rw [if_neg (by simp)]
        exact hlen'
      | true =>
        rw [if_pos rfl, shuffleArray_length]
        exact hlen'

/-- C8: for the plain repeat scheduler on a queue of length 3 with
`maxIterations = 7`, calls 1 through 21 return a non-empty queue, the 22nd
call returns the empty queue, and a call reshuffles exactly when the number
of completed calls is 0 or a multiple of the queue length. -/
theorem claim_C8_plain_exhaustion (rnds : Nat → Nat → Int) (todo0 : List ItemPair)
    (h3 : todo0.length = 3) :
    (∀ k, 1 ≤ k → k ≤ 21 → (randRun rnds todo0 k).2 ≠ [])
    ∧ (randRun rnds todo0 22).2 = []
    ∧ (∀ k, k ≤ 20 →
        (randRun rnds todo0 (k + 1)).2
          = (if k % 3 == 0
             then shuffleArray (rnds k) (randRun rnds todo0 k).2
             else (randRun rnds todo0 k).2)) := by
  have hinv := randRun_state rnds todo0 h3
  refine ⟨?_, ?_, ?_⟩
  · intro k h1 h21 he
    have hl := (hinv k).2.2.2 h21
    rw [he] at hl
    simp at hl
  · show (randUpdateToDo (rnds 21) (randRun rnds todo0 21).1
        (randRun rnds todo0 21).2).2 = []
    obtain ⟨hit, htl, hmx, -⟩ := hinv 21
    rw [randUpdateToDo_queue, hit, htl, hmx]
    rw [if_pos (by decide)]
  · intro k hk20
    show (randUpdateToDo (rnds k) (randRun rnds todo0 k).1
        (randRun rnds todo0 k).2).2 = _
    obtain ⟨hit, htl, hmx, -⟩ := hinv k
    rw [randUpdateToDo_queue, hit, htl, hmx]
    have hc1 : ((k + 1 - 1 == 7 * 3)) = false := by
      simp only [Nat.add_sub_cancel, beq_eq_false_iff_ne, ne_eq]
      omega
    rw [hc1, if_neg (by simp)]
    have hcond : (k == 0 || k % 3 == 0) = (k % 3 == 0) := by
      cases k with
      | zero => rfl
      | succ n => simp
    rw [hcond]

/-- C8 witness: on the concrete three-item queue, the 22nd call returns the
empty queue. -/
theorem claim_C8_witness : (randRun rndsW todoW3 22).2 = [] :=
  (claim_C8_plain_exhaustion rndsW todoW3 (by decide)).2.1

theorem get?_isSome_of_lt {α : Type} {l : List α} {n : Nat} (h : n < l.length) :
    (l.get? n).isSome := by
  rw [List.get?_eq_getElem?, List.getElem?_eq_getElem h]
  rfl

/-- C9: the vector-based strategy's centroid-seed computation is a pure
function of the item list: it yields exactly 4 seeds, the coordinates at
indexes ⌊0.2·N⌋, ⌊0.4·N⌋, ⌊0.6·N⌋, ⌊0.8·N⌋ of the position list (written as
`(k+1) * N / 5`), all of which exist for a non-empty item list — so the same
item set always yields the same centroid seeds. -/
theorem claim_C9_cents (itemPairs : List ItemPair) (h : itemPairs ≠ []) :
    (computeCents itemPairs).length = 4
    ∧ ∀ k, k < 4 →
        (computeCents itemPairs).get? k
          = some ((itemPairs.map (fun item => item.pos)).get?
              ((k + 1) * itemPairs.length / 5))
        ∧ ((itemPairs.map (fun item => item.pos)).get?
              ((k + 1) * itemPairs.length / 5)).isSome := by
  have hN : 0 < itemPairs.length := List.length_pos.mpr h
  have hexp : computeCents itemPairs
      = [(itemPairs.map (fun item => item.pos)).get?
            (1 * (itemPairs.map (fun item => item.pos)).length / 5),
         (itemPairs.map (fun item => item.pos)).get?
            (2 * (itemPairs.map (fun item => item.pos)).length / 5),
         (itemPairs.map (fun item => item.pos)).get?
            (3 * (itemPairs.map (fun item => item.pos)).length / 5),
         (itemPairs.map (fun item => item.pos)).get?
            (4 * (itemPairs.map (fun item => item.pos)).length / 5)] := rfl
  have hml : (itemPairs.map (fun item => item.pos)).length = itemPairs.length :=
    List.length_map _ _
  refine ⟨by rw [hexp]; rfl, ?_⟩
  intro k hk
  have hsome : ∀ c : Nat, 1 ≤ c → c ≤ 4 →
      ((itemPairs.map (fun item => item.pos)).get?
        (c * itemPairs.length / 5)).isSome := by
    intro c h1 h4
    apply get?_isSome_of_lt
    rw [hml]
    rw [Nat.div_lt_iff_lt_mul (by norm_num)]
    have : c * itemPairs.length ≤ 4 * itemPairs.length :=
      Nat.mul_le_mul_right _ h4
    omega
  interval_cases k
  · exact ⟨by rw [hexp, hml]; rfl, hsome 1 (by norm_num) (by norm_num)⟩
  · exact ⟨by rw [hexp, hml]; rfl, hsome 2 (by norm_num) (by norm_num)⟩
  · exact ⟨by rw [hexp, hml]; rfl, hsome 3 (by norm_num) (by norm_num)⟩
  · exact ⟨by rw [hexp, hml]; rfl, hsome 4 (by norm_num) (by norm_num)⟩

/-- C9 witness: a concrete one-item list yields exactly 4 centroid seeds. -/
theorem claim_C9_witness : (computeCents [itemA]).length = 4 :=
  (claim_C9_cents [itemA] (by decide)).1

/-- Classifying a list by a key function over a duplicate-free, covering key
list partitions its length. -/
theorem countP_partition_sum {α : Type} (key : α → Option Nat) :
    ∀ (keys : List Nat) (l : List α),
      keys.Nodup → (∀ x ∈ l, ∃ k ∈ keys, key x = some k) →
      (keys.map (fun k => (l.filter (fun x => key x == some k)).length)).sum
        = l.length := by
  intro keys
  induction keys with
  | nil =>
    intro l _ hcov
    cases l with
    | nil => rfl
    | cons x xs => exact absurd (hcov x (by simp)) (by simp)
  | cons k ks ih =>
    intro l hnd hcov
    rw [List.map_cons, List.sum_cons]
    have hagree : ∀ j ∈ ks,
        (l.filter (fun x => !(key x == some k))).filter (fun x => key x == some j)
          = l.filter (fun x => key x == some j) := by
      intro j hj
      have hjk : j ≠ k := fun he => (List.nodup_cons.mp hnd).1 (he ▸ hj)
      rw [List.filter_filter]
      apply List.filter_congr
      intro x hx
      cases hkj : (key x == some j) with
      | false => simp
      | true =>
        have hxj : key x = some j := by
          have := hkj
          rwa [beq_iff_eq] at this
        have hxk : (key x == some k) = false := by
          rw [hxj]
          simp [hjk]
        rw [hxk]
        simp
    have hcov' : ∀ x ∈ l.filter (fun x => !(key x == some k)),
        ∃ j ∈ ks, key x = some j := by
      intro x hx
      obtain ⟨hxl, hxk⟩ := List.mem_filter.mp hx
      obtain ⟨j, hjmem, hje⟩ := hcov x hxl
      rcases List.mem_cons.mp hjmem with rfl | hjks
      · rw [hje] at hxk
        simp at hxk
      · exact ⟨j, hjks, hje⟩
    have hsum := ih (l.filter (fun x => !(key x == some k)))
      (List.nodup_cons.mp hnd).2 hcov'
    have hmapeq : ks.map (fun j => (l.filter (fun x => key x == some j)).length)
        = ks.map (fun j =>
            ((l.filter (fun x => !(key x == some k))).filter
              (fun x => key x == some j)).length) := by
      apply List.map_congr_left
      intro j hj
      rw [hagree j hj]
    rw [hmapeq, hsum]
    exact (List.length_eq_length_filter_add (fun x => key x == some k)).symm

theorem buildRandomClusters_flatten (sh : List ItemPair) :
    ∀ (needs : List Nat) (i t : Nat),
      ((buildRandomClusters sh needs i t).map (fun c => c.itemPairs)).flatten
        = (sh.drop t).take needs.sum := by
  intro needs
  induction needs with
  | nil =>
    intro i t
    simp [buildRandomClusters]
  | cons n rest ih =>
    intro i t
    rw [buildRandomClusters, List.map_cons, List.flatten_cons, ih, List.sum_cons,
      List.take_add]
    congr 1
    rw [List.drop_drop]

theorem flatten_filter_count (ip : ItemPair) :
    ∀ (L : List (List ItemPair)), L.flatten.count ip = 1 →
      (L.filter (fun ch => ch.contains ip)).length = 1 := by
  intro L
  induction L with
  | nil =>
    intro h
    simp at h
  | cons ch L' ih =>
    intro h
    rw [List.flatten_cons, List.count_append] at h
    by_cases hch : ip ∈ ch
    · have h1 : 0 < ch.count ip := List.count_pos_iff.mpr hch
      have h2 : L'.flatten.count ip = 0 := by omega
      rw [List.filter_cons, if_pos (List.elem_iff.mpr hch)]
      simp only [List.length_cons]
      have hnil : L'.filter (fun ch' => ch'.contains ip) = [] := by
        rw [List.filter_eq_nil_iff]
        intro ch' hch'
        have hc0 : ch'.count ip = 0 := by
          rw [List.count_flatten] at h2
          have := (List.sum_eq_zero_iff.mp h2) (ch'.count ip)
            (List.mem_map_of_mem _ hch')
          exact this
        intro hc
        exact absurd (List.elem_iff.mp hc) (List.count_eq_zero.mp hc0)
      rw [hnil]
      rfl
    · have h0 : ch.count ip = 0 := List.count_eq_zero.mpr hch
      rw [List.filter_cons, if_neg (fun hc => hch (List.elem_iff.mp hc))]
      apply ih
      omega

theorem buildRandomClusters_members (sh : List ItemPair) :
    ∀ (needs : List Nat) (i t : Nat) (c : Cluster),
      c ∈ buildRandomClusters sh needs i t → ∀ ip ∈ c.itemPairs, ip ∈ sh := by
  intro needs
  induction needs with
  | nil =>
    intro i t c hc
    exact absurd hc (by simp [buildRandomClusters])
  | cons n rest ih =>
    intro i t c hc ip hip
    rw [buildRandomClusters, List.mem_cons] at hc
    rcases hc with rfl | hc
    · exact List.mem_of_mem_drop (List.mem_of_mem_take hip)
    · exact ih (i + 1) (t + n) c hc ip hip

theorem buildRandomClusters_ids (sh : List ItemPair) :
    ∀ (needs : List Nat) (i t : Nat),
      (buildRandomClusters sh needs i t).map (fun c => c.ID)
        = List.range' i needs.length := by
  intro needs
  induction needs with
  | nil => intro i t; rfl
  | cons n rest ih =>
    intro i t
    rw [buildRandomClusters, List.map_cons, List.length_cons, List.range'_succ, ih]
    rfl

/-- Under the index-alignment and label-contract hypotheses, every input item
lies in exactly one cluster produced by the vector-based strategy. -/
theorem kmeans_filter_one {itemPairs : List ItemPair} {clustersIndexes : List Nat}
    (hlen : clustersIndexes.length = itemPairs.length)
    (halign : itemPairs.map (fun ip => ip.index) = List.range itemPairs.length)
    {ip : ItemPair} (hip : ip ∈ itemPairs) :
    ((computeClustersKMeans itemPairs clustersIndexes).filter
      (fun c => c.itemPairs.contains ip)).length = 1 := by
  have hidx : ip.index < clustersIndexes.length := by
    rw [hlen]
    have hm : ip.index ∈ List.range itemPairs.length := by
      rw [← halign]
      exact List.mem_map_of_mem _ hip
    exact List.mem_range.mp hm
  obtain ⟨L, hgetL, hLmem⟩ :
      ∃ L, clustersIndexes.get? ip.index = some L ∧ L ∈ clustersIndexes :=
    ⟨_, List.get?_eq_get hidx, List.get_mem _ _ _⟩
  rw [← List.countP_eq_length_filter, computeClustersKMeans, List.countP_map]
  have hpt : ∀ cid ∈ firstOccs clustersIndexes,
      (((fun c => c.itemPairs.contains ip) ∘ fun clusterID =>
        Cluster.mkNew clusterID (itemPairs.filter
          (fun itemPair => clustersIndexes.get? itemPair.index == some clusterID))) cid
        = true)
      ↔ ((fun cid => cid == L) cid = true) := by
    intro cid _
    show ((itemPairs.filter
        (fun itemPair => clustersIndexes.get? itemPair.index == some cid)).contains ip
      = true) ↔ ((cid == L) = true)
    constructor
    · intro hc
      have hmem := List.elem_iff.mp hc
      have h2 := (List.mem_filter.mp hmem).2
      rw [hgetL] at h2
      rw [beq_iff_eq] at h2 ⊢
      exact (Option.some.inj h2).symm
    · intro hc
      have hcid : cid = L := by rwa [beq_iff_eq] at hc
      subst hcid
      refine List.elem_iff.mpr (List.mem_filter.mpr ⟨hip, ?_⟩)
      rw [hgetL]
      exact beq_self_eq_true _
  rw [List.countP_congr hpt]
  exact List.count_eq_one_of_mem (firstOccs_nodup _)
    ((mem_firstOccs L _).mpr hLmem)

/-- C5 counterexample: with two input items and the contract-conforming
external label list `[0, 0]` (at most two distinct labels are even possible
for two items), the vector-based strategy builds a single cluster with id 0 —
the cluster ids are not `0..K−1` (K = 4): no cluster has id 1. -/
theorem claim_C5_counterexample :
    ¬ ∃ c ∈ computeClustersKMeans [itemA, itemB] [0, 0], c.ID = 1 := by
  decide

/-- C5 (amended): under the alignment the source relies on (each item's
`index` equals its position) and the external primitive's contract (one label
per item, labels in `[0, K)`), both strategies return a strict partition of
the input: every item lies in exactly one returned cluster and every cluster
member is an input item.  The cluster ids, however, are: for the vector-based
strategy the distinct labels in first-occurrence order (a subset of `0..K−1`,
possibly with gaps and possibly fewer than `K`), and for the size-matched
random strategy exactly `0..m−1` where `m` is the number of distinct
labels. -/
theorem claim_C5_amended (itemPairs : List ItemPair) (clustersIndexes : List Nat)
    (halign : itemPairs.map (fun ip => ip.index) = List.range itemPairs.length)
    (hlen : clustersIndexes.length = itemPairs.length)
    (hK : ∀ l ∈ clustersIndexes, l < 4) :
    (∀ ip ∈ itemPairs,
        ((computeClustersKMeans itemPairs clustersIndexes).filter
          (fun c => c.itemPairs.contains ip)).length = 1)
    ∧ (∀ c ∈ computeClustersKMeans itemPairs clustersIndexes,
        ∀ ip ∈ c.itemPairs, ip ∈ itemPairs)
    ∧ ((computeClustersKMeans itemPairs clustersIndexes).map (fun c => c.ID)
          = firstOccs clustersIndexes
        ∧ ∀ c ∈ computeClustersKMeans itemPairs clustersIndexes, c.ID < 4)
    ∧ (∀ rnd : Nat → Int, ∀ ip ∈ itemPairs,
        ((computeClustersRandom rnd itemPairs clustersIndexes).filter
          (fun c => c.itemPairs.contains ip)).length = 1)
    ∧ (∀ rnd : Nat → Int,
        ∀ c ∈ computeClustersRandom rnd itemPairs clustersIndexes,
          ∀ ip ∈ c.itemPairs, ip ∈ itemPairs)
    ∧ (∀ rnd : Nat → Int,
        (computeClustersRandom rnd itemPairs clustersIndexes).map (fun c => c.ID)
          = List.range (firstOccs clustersIndexes).length) := by
  have hmn : (itemPairs.map (fun ip => ip.index)).Nodup := by
    rw [halign]
    exact List.nodup_range _
  have hnodup : itemPairs.Nodup := List.Nodup.of_map _ hmn
  have hneeds : ((computeClustersKMeans itemPairs clustersIndexes).map
      (fun c => c.itemPairs.length)).sum = itemPairs.length := by
    rw [computeClustersKMeans, List.map_map]
    have hcov : ∀ x ∈ itemPairs, ∃ k ∈ firstOccs clustersIndexes,
        clustersIndexes.get? x.index = some k := by
      intro x hx
      have hidx : x.index < clustersIndexes.length := by
        rw [hlen]
        have hm : x.index ∈ List.range itemPairs.length := by
          rw [← halign]
          exact List.mem_map_of_mem _ hx
        exact List.mem_range.mp hm
      exact ⟨_, (mem_firstOccs _ _).mpr (List.get_mem _ _ hidx),
        List.get?_eq_get hidx⟩
    exact countP_partition_sum (fun x => clustersIndexes.get? x.index)
      (firstOccs clustersIndexes) itemPairs (firstOccs_nodup _) hcov
  refine ⟨?_, ?_, ⟨?_, ?_⟩, ?_, ?_, ?_⟩
  · intro ip hip
    exact kmeans_filter_one hlen halign hip
  · intro c hc ip hip
    rw [computeClustersKMeans] at hc
    rcases List.mem_map.mp hc with ⟨cid, -, rfl⟩
    exact List.mem_of_mem_filter hip
  · rw [computeClustersKMeans, List.map_map]
    exact List.map_id _
  · intro c hc
    rw [computeClustersKMeans] at hc
    rcases List.mem_map.mp hc with ⟨cid, hcid, rfl⟩
    exact hK cid ((mem_firstOccs _ _).mp hcid)
  · intro rnd ip hip
    have hcount : (shuffleArray rnd itemPairs).count ip = 1 := by
      rw [(shuffleArray_perm rnd itemPairs).count_eq]
      exact List.count_eq_one_of_mem hnodup hip
    show ((buildRandomClusters (shuffleArray rnd itemPairs)
        ((computeClustersKMeans itemPairs clustersIndexes).map
          (fun c => c.itemPairs.length)) 0 0).filter
        (fun c => c.itemPairs.contains ip)).length = 1
    rw [← List.countP_eq_length_filter]
    rw [show List.countP (fun c => c.itemPairs.contains ip)
        (buildRandomClusters (shuffleArray rnd itemPairs)
          ((computeClustersKMeans itemPairs clustersIndexes).map
            (fun c => c.itemPairs.length)) 0 0)
      = List.countP (fun ch => ch.contains ip)
          ((buildRandomClusters (shuffleArray rnd itemPairs)
            ((computeClustersKMeans itemPairs clustersIndexes).map
              (fun c => c.itemPairs.length)) 0 0).map (fun c => c.itemPairs))
      from (List.countP_map _ _ _).symm]
    rw [List.countP_eq_length_filter]
    apply flatten_filter_count
    rw [buildRandomClusters_flatten, List.drop_zero, hneeds,
      ← shuffleArray_length rnd itemPairs, List.take_length]
    exact hcount
  · intro rnd c hc ip hip
    have hc' : c ∈ buildRandomClusters (shuffleArray rnd itemPairs)
        ((computeClustersKMeans itemPairs clustersIndexes).map
          (fun c => c.itemPairs.length)) 0 0 := hc
    have hsh := buildRandomClusters_members (shuffleArray rnd itemPairs)
      ((computeClustersKMeans itemPairs clustersIndexes).map
        (fun c => c.itemPairs.length)) 0 0 c hc' ip hip
    exact (shuffleArray_perm rnd itemPairs).mem_iff.mp hsh
  · intro rnd
    show (buildRandomClusters (shuffleArray rnd itemPairs)
        ((computeClustersKMeans itemPairs clustersIndexes).map
          (fun c => c.itemPairs.length)) 0 0).map (fun c => c.ID) = _
    rw [buildRandomClusters_ids, ← List.range_eq_range']
    congr 1
    rw [List.length_map, computeClustersKMeans, List.length_map]

/-- C5 witness: on the concrete two-item list with labels `[0, 1]`, the first
item lies in exactly one vector-strategy cluster. -/
theorem claim_C5_witness :
    ((computeClustersKMeans [itemA, itemB] [0, 1]).filter
      (fun c => c.itemPairs.contains itemA)).length = 1 :=
  (claim_C5_amended [itemA, itemB] [0, 1] (by decide) (by decide) (by decide)).1
    itemA (by decide)

end MindSort
